import Mathlib

/-!
Shallow embedding of the VPN data-plane core of net_packet.c (tinc):
the try-harder source resolution of handle_incoming_vpn_data, the TCP
receive path, the replay window of receive_udppacket, the egress
pipeline send_udppacket with its EMSGSIZE MTU tightening, the MTU
prober, and the decompress-and-dispatch tail of the ingress pipeline.
External collaborators (ciphers, digests, the LZO and zlib compressors,
sockets, the routing layer) are abstracted as environment parameters
that record the collaborator responses observed during one call, so
every definition stays executable.
-/

/-- One VPN frame (vpn_packet_t): payload bytes, the transient length
field, and the priority hint (-1 forces the TCP path). -/
structure VPacket where
  data : List Nat
  len : Nat
  priority : Int
deriving DecidableEq

/-- Byte i of a frame's payload, 0 when out of range. -/
def pktByte (p : VPacket) (i : Nat) : Nat := p.data.getD i 0

/-- Network byte order (big endian) bytes of a 32-bit sequence number,
as htonl writes them into the frame's seqno slot. -/
def htonl (x : Nat) : List Nat :=
  [x / 16777216 % 256, x / 65536 % 256, x / 256 % 256, x % 256]

/-! Try-harder source resolution (net_packet.c lines 476-536).
Socket addresses are abstracted as naturals and sockaddrcmp_noport as
their comparison; try_mac is abstracted as a per-node boolean macOk
(it bundles digest_active, inmaclength, the length guard and
digest_verify, all collaborator state). -/

/-- One entry of edge_weight_tree: the node the edge leads to and the
address of its remote endpoint. -/
structure Edge where
  toNode : Nat
  address : Nat
deriving DecidableEq

/-- Address comparison ignoring the port: 0 when equal, nonzero
otherwise, as the model needs of sockaddrcmp_noport. -/
def sockaddrcmp_noport (a b : Nat) : Nat := if a = b then 0 else 1

/-- Loop of try_harder: n starts as NULL, is set to the first
address-matching edge endpoint, and the loop breaks at the first
address-matching endpoint whose inbound MAC verifies the packet. -/
def try_harder_loop (macOk : Nat → Bool) (source : Nat) :
    List Edge → Option Nat → Option Nat
  | [], n => n
  | e :: rest, n =>
    if sockaddrcmp_noport source e.address ≠ 0 then
      try_harder_loop macOk source rest n
    else
      let n2 := if n = none then some e.toNode else n
      if macOk e.toNode then some e.toNode
      else try_harder_loop macOk source rest n2

/-- Embedding of try_harder (net_packet.c lines 476-498). -/
def try_harder (macOk : Nat → Bool) (edges : List Edge) (source : Nat) :
    Option Nat :=
  try_harder_loop macOk source edges none

/-- Observable effects of the peer-resolution step of
handle_incoming_vpn_data: which node had update_node_udp applied and
which node the datagram was handed to receive_udppacket for. -/
structure IngressEffects where
  updated : Option Nat
  delivered : Option Nat
deriving DecidableEq

/-- Peer-resolution step of handle_incoming_vpn_data (net_packet.c
lines 519-535): lookupRes is the lookup_node_udp result; on lookup
failure try_harder runs, and a node it returns gets update_node_udp
and then receive_udppacket; otherwise the datagram is dropped. -/
def handle_incoming (macOk : Nat → Bool) (edges : List Edge)
    (source : Nat) (lookupRes : Option Nat) : IngressEffects :=
  match lookupRes with
  | some n => { updated := none, delivered := some n }
  | none =>
    match try_harder macOk edges source with
    | some n => { updated := some n, delivered := some n }
    | none => { updated := none, delivered := none }

/-- First-match helper used to state what try_harder computes. -/
def oelse (a b : Option Nat) : Option Nat :=
  match a with
  | some x => some x
  | none => b

/-- First edge endpoint whose address matches and whose MAC verifies. -/
def firstMacMatch (macOk : Nat → Bool) (source : Nat)
    (edges : List Edge) : Option Nat :=
  (edges.find? (fun e => decide (source = e.address) && macOk e.toNode)).map Edge.toNode

/-- First edge endpoint whose address matches, MAC checked or not. -/
def firstAddrMatch (source : Nat) (edges : List Edge) : Option Nat :=
  (edges.find? (fun e => decide (source = e.address))).map Edge.toNode

/-! TCP receive path (net_packet.c lines 276-289). -/

/-- TCP meta-connection state: only the OPTION_TCPONLY bit matters on
this path. -/
structure Connection where
  tcponly : Bool
deriving DecidableEq

/-- Embedding of receive_tcppacket: the frame built from a TCP-received
buffer and handed unchanged to route() via receive_packet; no MAC
verification and no decryption happen on this path. -/
def receive_tcppacket (c : Connection) (buffer : List Nat) (len : Nat) :
    VPacket :=
  { data := buffer, len := len, priority := if c.tcponly then 0 else -1 }

/-! Replay window of receive_udppacket (net_packet.c lines 224-248).
The late bitmap of B bytes is modelled at bit granularity: the C code
tests byte (s / 8) % B at bit s % 8, which is bit position
latebit B s of the flat bitmap. -/

/-- Rekey threshold MAX_SEQNO (net_packet.c line 57). -/
def MAX_SEQNO : Nat := 1073741824

/-- Sequence-number state of a peer: received_seqno, the late bitmap
(bit positions to pending flags), and whether regenerate_key was
signalled. received_seqno is a u32 in C; the rekey threshold at 2^30
keeps it far from wraparound, so it is modelled as a natural. -/
structure SeqState where
  received_seqno : Nat
  late : Nat → Bool
  rekey : Bool

/-- Flat bit position the C code addresses for seqno s:
byte (s / 8) % B, bit s % 8. -/
def latebit (B s : Nat) : Nat := 8 * ((s / 8) % B) + s % 8

/-- Mark cnt consecutive seqnos lo, lo+1, ..., lo+cnt-1 as still
pending, as the for-loop at line 237-238 does. -/
def markRange (B : Nat) (late : Nat → Bool) (lo : Nat) : Nat → (Nat → Bool)
  | 0 => late
  | k + 1 => fun p =>
      if p = latebit B (lo + k) then true else markRange B late lo k p

/-- Tail of the sequence check (lines 242-248): clear the bit of the
accepted seqno, advance received_seqno if the seqno is newer, and
signal regenerate_key past MAX_SEQNO. -/
def finishSeqno (B : Nat) (st : SeqState) (s : Nat) : SeqState :=
  let R2 := if st.received_seqno < s then s else st.received_seqno
  { received_seqno := R2
  , late := fun p => if p = latebit B s then false else st.late p
  , rekey := decide (MAX_SEQNO < R2) }

/-- Embedding of the sequence-number check of receive_udppacket
(lines 224-248) with window W = 8 * B bits: none means the packet is
dropped as late or replayed, some is the peer state after acceptance. -/
def seqnoCheck (B : Nat) (st : SeqState) (s : Nat) : Option SeqState :=
  if s ≠ st.received_seqno + 1 then
    if st.received_seqno + 8 * B ≤ s then
      some (finishSeqno B { st with late := fun _ => false } s)
    else if s ≤ st.received_seqno then
      if (8 * B ≤ st.received_seqno ∧ s ≤ st.received_seqno - 8 * B)
          ∨ st.late (latebit B s) = false then
        none
      else some (finishSeqno B st s)
    else
      let marked := markRange B st.late (st.received_seqno + 1) (s - st.received_seqno - 1)
      some (finishSeqno B { st with late := marked } s)
  else some (finishSeqno B st s)

/-! Egress pipeline send_udppacket (net_packet.c lines 291-409). -/

/-- Per-peer state read and written by send_udppacket. sent_seqno is a
u32 in C; rekeying precludes wraparound (spec section 9), so it is a
natural here. -/
structure SNode where
  validkey : Bool
  waitingforkey : Bool
  sent_seqno : Nat
  minmtu : Nat
  mtu : Nat
  maxmtu : Nat
  outcompression : Nat
  pmtu_discovery : Bool
  outcipherActive : Bool
  outdigestActive : Bool
  outdigestLen : Nat
deriving DecidableEq

/-- Result of the sendto system call for one emission attempt. -/
inductive SendtoRes where
  | ok
  | emsgsize
  | otherErr
deriving DecidableEq

/-- Collaborator responses observed during one send_udppacket call:
the output lengths the LZO compressors report, whether zlib compress2
returns Z_OK and with which length, whether cipher_encrypt succeeds
and the length it produces, and the sendto outcome. -/
structure SendEnv where
  lzo1Len : Nat
  lzo999Len : Nat
  zlibOk : Bool
  zlibLen : Nat
  encryptOk : Bool
  encryptLen : Nat → Nat
  sendtoRes : SendtoRes

/-- Embedding of compress_packet (net_packet.c lines 115-133): level 10
is LZO fast, levels below 10 are zlib (failure -1 modelled as none when
compress2 does not return Z_OK), anything above 10 is LZO best. Both
LZO return codes are ignored by the C code; the lzolen output is
returned unconditionally. -/
def compress_packet (env : SendEnv) (len : Nat) (level : Nat) : Option Nat :=
  if level = 10 then some env.lzo1Len
  else if level < 10 then
    if env.zlibOk then some env.zlibLen else none
  else some env.lzo999Len

/-- Observable outcome of one send_udppacket call: the peer state after
the call, the frames handed to send_tcppacket on nexthop->connection,
whether send_req_key was called, whether the compression-error drop
branch was taken, the seqno slot contents of the packet handed to the
encrypt stage, the sent_seqno value of the emitted datagram, the
length handed to sendto, and the caller's frame after return. -/
structure SendResult where
  node : SNode
  tcpSent : List VPacket
  reqKey : Bool
  compressDropped : Bool
  preEncSeqno : Option (List Nat)
  emittedSeqno : Option Nat
  udpLen : Option Nat
  finalPkt : VPacket
deriving DecidableEq

/-- Embedding of send_udppacket (net_packet.c lines 291-409): key
check with TCP fallback, PMTU-discovery TCP fallback for non-probe
frames, compression, seqno increment and htonl write, encryption,
MAC length extension, sendto, and the EMSGSIZE clamp of maxmtu and
mtu against origlen (the pre-compression frame length). -/
def send_udppacket (env : SendEnv) (n : SNode) (origpkt : VPacket) :
    SendResult :=
  if n.validkey = false then
    { node := { n with waitingforkey := true }
    , tcpSent := [origpkt]
    , reqKey := !n.waitingforkey
    , compressDropped := false
    , preEncSeqno := none
    , emittedSeqno := none
    , udpLen := none
    , finalPkt := origpkt }
  else if n.pmtu_discovery = true ∧ n.minmtu = 0
      ∧ (pktByte origpkt 12 ≠ 0 ∨ pktByte origpkt 13 ≠ 0) then
    { node := n
    , tcpSent := [origpkt]
    , reqKey := false
    , compressDropped := false
    , preEncSeqno := none
    , emittedSeqno := none
    , udpLen := none
    , finalPkt := origpkt }
  else
    let origlen := origpkt.len
    match (if n.outcompression ≠ 0 then
            compress_packet env origpkt.len n.outcompression
           else some origpkt.len) with
    | none =>
      { node := n
      , tcpSent := []
      , reqKey := false
      , compressDropped := true
      , preEncSeqno := none
      , emittedSeqno := none
      , udpLen := none
      , finalPkt := { origpkt with len := origlen } }
    | some clen =>
      let seq := n.sent_seqno + 1
      let n1 := { n with sent_seqno := seq }
      let slot := htonl seq
      let len1 := clen + 4
      match (if n.outcipherActive then
              (if env.encryptOk then some (env.encryptLen len1) else none)
             else some len1) with
      | none =>
        { node := n1
        , tcpSent := []
        , reqKey := false
        , compressDropped := false
        , preEncSeqno := some slot
        , emittedSeqno := none
        , udpLen := none
        , finalPkt := { origpkt with len := origlen } }
      | some elen =>
        let wlen := if n.outdigestActive then elen + n.outdigestLen else elen
        let n2 :=
          if env.sendtoRes = SendtoRes.emsgsize then
            { n1 with
              maxmtu := if origlen ≤ n1.maxmtu then origlen - 1 else n1.maxmtu
            , mtu := if origlen ≤ n1.mtu then origlen - 1 else n1.mtu }
          else n1
        { node := n2
        , tcpSent := []
        , reqKey := false
        , compressDropped := false
        , preEncSeqno := some slot
        , emittedSeqno := some seq
        , udpLen := some wlen
        , finalPkt := { origpkt with len := origlen } }

/-- Run a sequence of send_udppacket calls against one peer, collecting
the sent_seqno values of the frames handed to sendto. -/
def sendTrace : SNode → List (SendEnv × VPacket) → SNode × List Nat
  | n, [] => (n, [])
  | n, c :: rest =>
    let r := send_udppacket c.1 n c.2
    let p := sendTrace r.node rest
    (p.1, r.emittedSeqno.toList ++ p.2)

/-! MTU prober state machine (net_packet.c lines 59-113 and 397-405),
projected onto the mtu fields of a peer. -/

/-- MTU fields of a peer. -/
structure MtuState where
  minmtu : Nat
  mtu : Nat
  maxmtu : Nat
  mtuprobes : Nat
deriving DecidableEq

/-- EMSGSIZE tightening (net_packet.c lines 398-402) for a frame of
pre-compression length origlen. -/
def clampEms (st : MtuState) (origlen : Nat) : MtuState :=
  { minmtu := st.minmtu
  , mtu := if origlen ≤ st.mtu then origlen - 1 else st.mtu
  , maxmtu := if origlen ≤ st.maxmtu then origlen - 1 else st.maxmtu
  , mtuprobes := st.mtuprobes }

/-- One event touching the mtu fields: reception of a probe reply of
recorded length L (mtu_probe_h, lines 110-111), a UDP send of
pre-compression length origlen whose sendto may fail with EMSGSIZE,
or one run of send_mtu_probe_handler, whose three probes each carry a
random draw and an EMSGSIZE flag for their own sendto. -/
inductive MtuEvent where
  | probeReply (L : Nat)
  | udpSend (origlen : Nat) (ems : Bool)
  | probeRound (a b c : Nat × Bool)
deriving DecidableEq

/-- Probe loop of send_mtu_probe_handler (lines 73-92): each iteration
either fixes mtu to minmtu and stops (probes exhausted or window
closed), or emits a probe of length minmtu + 1 + r mod (maxmtu -
minmtu), clamped to at least 64, whose sendto may hit EMSGSIZE. -/
def roundLoop : MtuState → List (Nat × Bool) → MtuState
  | st, [] => st
  | st, re :: rest =>
    if 30 ≤ st.mtuprobes ∨ st.maxmtu ≤ st.minmtu then
      { st with mtu := st.minmtu }
    else
      let len0 := st.minmtu + 1 + re.1 % (st.maxmtu - st.minmtu)
      let len := if len0 < 64 then 64 else len0
      let st2 := if re.2 then clampEms st len else st
      roundLoop st2 rest

/-- One step of the mtu-field transition system. -/
def stepEvent (st : MtuState) : MtuEvent → MtuState
  | MtuEvent.probeReply L =>
      if st.minmtu < L then { st with minmtu := L } else st
  | MtuEvent.udpSend origlen ems =>
      if ems then clampEms st origlen else st
  | MtuEvent.probeRound a b c =>
      let st1 := { st with mtuprobes := st.mtuprobes + 1 }
      if 10 ≤ st1.mtuprobes ∧ st1.minmtu = 0 then st1
      else roundLoop st1 [a, b, c]

/-- Run a sequence of mtu events. -/
def runMtu (st : MtuState) (evs : List MtuEvent) : MtuState :=
  evs.foldl stepEvent st

/-- Ordering invariant of the MTU estimates. -/
def MtuInv (st : MtuState) : Prop := st.minmtu ≤ st.mtu ∧ st.mtu ≤ st.maxmtu

instance (st : MtuState) : Decidable (MtuInv st) := by
  unfold MtuInv
  infer_instance

/-- Side condition an event must satisfy for the ordering invariant to
be preserved: probe replies no longer than the current mtu, EMSGSIZE
only on frames longer than the current minmtu. -/
def okEventB (st : MtuState) : MtuEvent → Bool
  | MtuEvent.probeReply L => decide (L ≤ st.mtu)
  | MtuEvent.udpSend origlen ems => !ems || decide (st.minmtu < origlen)
  | MtuEvent.probeRound _ _ _ => true

/-- Side condition threaded through a whole event sequence. -/
def traceOKB : MtuState → List MtuEvent → Bool
  | _, [] => true
  | st, e :: evs => okEventB st e && traceOKB (stepEvent st e) evs

/-! Decompress-and-dispatch tail of receive_udppacket (net_packet.c
lines 250-273) and mtu_probe_h (lines 103-113). -/

/-- Receive-side peer fields this tail reads and writes. -/
structure RNode where
  minmtu : Nat
  incompression : Nat
deriving DecidableEq

/-- Collaborator response of uncompress_packet: none on failure, or
the decompressed bytes together with the decompressed length. -/
structure RecvEnv where
  uncompressResult : Option (List Nat × Nat)
deriving DecidableEq

/-- Embedding of mtu_probe_h (lines 103-113): a probe whose first byte
is zero is turned into a reply and sent back; otherwise it is a reply
to one of our probes and minmtu is raised to len when len is larger. -/
def mtu_probe_h (n : RNode) (pkt : VPacket) (len : Nat) : RNode × Bool :=
  if pktByte pkt 0 = 0 then (n, true)
  else (if n.minmtu < len then { n with minmtu := len } else n, false)

/-- Observable outcome of the dispatch tail: peer state, whether a
probe reply was sent back, the frame handed to route() if any, and
whether the packet was dropped on a decompression error. -/
structure RecvDispatch where
  node : RNode
  probeReplied : Bool
  routed : Option VPacket
  dropped : Bool
deriving DecidableEq

/-- Embedding of receive_udppacket lines 250-273: origlen starts as the
post-decrypt payload length; on inbound compression the payload is
replaced by the decompressed bytes and origlen is reduced by
MTU / 64 + 20; priority is cleared; frames whose payload bytes 12 and
13 are both zero go to mtu_probe_h with origlen, the rest to route().
MTU is the compile-time device MTU constant. -/
def receive_dispatch (MTU : Nat) (env : RecvEnv) (n : RNode)
    (pkt : VPacket) : RecvDispatch :=
  match (if n.incompression ≠ 0 then
          (match env.uncompressResult with
           | none => none
           | some d => some ({ data := d.1, len := d.2
                             , priority := pkt.priority }
                            , pkt.len - (MTU / 64 + 20)))
         else some (pkt, pkt.len)) with
  | none => { node := n, probeReplied := false, routed := none, dropped := true }
  | some q =>
    let p2 : VPacket := { q.1 with priority := 0 }
    if pktByte p2 12 = 0 ∧ pktByte p2 13 = 0 then
      let r := mtu_probe_h n p2 q.2
      { node := r.1, probeReplied := r.2, routed := none, dropped := false }
    else
      { node := n, probeReplied := false, routed := some p2, dropped := false }

/-! Concrete instances used by witnesses and counterexamples. -/

/-- Replay-window state for the C3 witness. -/
def stC3 : SeqState :=
  { received_seqno := 10, late := fun p => decide (p = 2), rekey := false }

/-- Replay-window state for the C4 witness. -/
def stC4 : SeqState :=
  { received_seqno := 9, late := fun _ => true, rekey := false }

/-- MTU state for the C5 witness. -/
def stC5w : MtuState := { minmtu := 600, mtu := 1000, maxmtu := 1500, mtuprobes := 3 }

/-- MTU state for the C5 counterexample. -/
def stC5x : MtuState := { minmtu := 600, mtu := 1500, maxmtu := 1500, mtuprobes := 5 }

/-- Send environment with a successful sendto. -/
def envOk : SendEnv :=
  { lzo1Len := 90, lzo999Len := 80, zlibOk := true, zlibLen := 70
  , encryptOk := true, encryptLen := fun l => l, sendtoRes := SendtoRes.ok }

/-- Send environment whose sendto fails with EMSGSIZE. -/
def envEms : SendEnv :=
  { lzo1Len := 90, lzo999Len := 80, zlibOk := true, zlibLen := 70
  , encryptOk := true, encryptLen := fun l => l, sendtoRes := SendtoRes.emsgsize }

/-- Peer with a valid key, no compression, no cipher and no digest. -/
def nodeK : SNode :=
  { validkey := true, waitingforkey := false, sent_seqno := 5
  , minmtu := 100, mtu := 1000, maxmtu := 1500, outcompression := 0
  , pmtu_discovery := false, outcipherActive := false
  , outdigestActive := false, outdigestLen := 0 }

/-- Data frame of pre-compression length 1200 with ethertype 0x0800. -/
def pktA : VPacket :=
  { data := [0, 0, 0, 0, 0, 0, 0, 0, 0, 0, 0, 0, 8, 0], len := 1200
  , priority := 0 }

/-- Decompressed probe-reply payload: first byte 1, ethertype bytes 0. -/
def dRep : List Nat := [1, 0, 0, 0, 0, 0, 0, 0, 0, 0, 0, 0, 0, 0]

/-- Receive environment reporting a decompressed length of 500. -/
def envRC : RecvEnv := { uncompressResult := some (dRep, 500) }

/-- Receive-side peer with LZO-fast inbound compression. -/
def nR : RNode := { minmtu := 0, incompression := 10 }

/-- Compressed wire payload of length 100. -/
def pktC : VPacket := { data := [], len := 100, priority := 0 }

/-! Theorems. -/

theorem try_harder_loop_eq (macOk : Nat → Bool) (source : Nat) :
    ∀ (edges : List Edge) (acc : Option Nat),
      try_harder_loop macOk source edges acc
        = oelse (firstMacMatch macOk source edges)
          (oelse acc (firstAddrMatch source edges)) := by
  intro edges
  induction edges with
  | nil =>
    intro acc
    cases acc <;> simp [try_harder_loop, firstMacMatch, firstAddrMatch, oelse]
  | cons e rest ih =>
    intro acc
    by_cases ha : source = e.address
    · have hfam : firstAddrMatch source (e :: rest) = some e.toNode := by
        have hpf : decide (source = e.address) = true := by simp [ha]
        simp [firstAddrMatch, List.find?, hpf]
      by_cases hm : macOk e.toNode
      · have hpf : (decide (source = e.address) && macOk e.toNode) = true := by
          simp [ha, hm]
        have hfmm : firstMacMatch macOk source (e :: rest) = some e.toNode := by
          simp [firstMacMatch, List.find?, hpf]
        have hstep : try_harder_loop macOk source (e :: rest) acc = some e.toNode := by
          simp [try_harder_loop, sockaddrcmp_noport, ha, hm]
        rw [hstep, hfmm]
        simp [oelse]
      · have hpf : (decide (source = e.address) && macOk e.toNode) = false := by
          simp [hm]
        have hfmm : firstMacMatch macOk source (e :: rest)
            = firstMacMatch macOk source rest := by
          simp [firstMacMatch, List.find?, hpf]
        have hstep : try_harder_loop macOk source (e :: rest) acc
            = try_harder_loop macOk source rest
                (if acc = none then some e.toNode else acc) := by
          simp [try_harder_loop, sockaddrcmp_noport, ha, hm]
        rw [hstep, ih, hfmm, hfam]
        cases hf : firstMacMatch macOk source rest <;> cases acc <;> simp [oelse]
    · have hpf2 : decide (source = e.address) = false := by simp [ha]
      have hpf : (decide (source = e.address) && macOk e.toNode) = false := by
        simp [ha]
      have hfam : firstAddrMatch source (e :: rest) = firstAddrMatch source rest := by
        simp [firstAddrMatch, List.find?, hpf2]
      have hfmm : firstMacMatch macOk source (e :: rest)
          = firstMacMatch macOk source rest := by
        simp [firstMacMatch, List.find?, hpf]
      have hstep : try_harder_loop macOk source (e :: rest) acc
          = try_harder_loop macOk source rest acc := by
        simp [try_harder_loop, sockaddrcmp_noport, ha]
      rw [hstep, ih, hfmm, hfam]

/-- C1 counterexample: with a single edge whose address matches the
datagram source but whose endpoint fails MAC verification, try_harder
still returns that endpoint, and handle_incoming_vpn_data both updates
its UDP address (update_node_udp) and delivers the packet to it
(receive_udppacket) - contradicting the claim that an address-match
without MAC verification is never delivered to and never updated. -/
theorem C1_counterexample :
    (fun _ : Nat => false) 7 = false
    ∧ try_harder (fun _ => false) [{ toNode := 7, address := 3 }] 3 = some 7
    ∧ (handle_incoming (fun _ => false) [{ toNode := 7, address := 3 }] 3 none).updated = some 7
    ∧ (handle_incoming (fun _ => false) [{ toNode := 7, address := 3 }] 3 none).delivered = some 7 := by
  refine ⟨rfl, by decide, by decide, by decide⟩

/-- C1 (amended): try_harder prefers the first address-matching edge
endpoint whose inbound MAC verifies the packet, but when no endpoint
verifies it falls back to the first address-matching endpoint; when
the direct lookup fails, handle_incoming_vpn_data updates the UDP
address of and delivers to whichever peer try_harder returns,
MAC-verified or not, and drops the datagram only when no edge address
matches at all. -/
theorem C1_try_harder_amended (macOk : Nat → Bool) (edges : List Edge) (source : Nat) :
    try_harder macOk edges source
      = oelse (firstMacMatch macOk source edges) (firstAddrMatch source edges)
    ∧ handle_incoming macOk edges source none
      = { updated := try_harder macOk edges source
        , delivered := try_harder macOk edges source } := by
  constructor
  · have h := try_harder_loop_eq macOk source edges none
    simpa [try_harder, oelse] using h
  · unfold handle_incoming
    cases h : try_harder macOk edges source <;> simp [h]

/-- C2 counterexample: a buffer received on a connection with the
TCP-only option set is wrapped with priority 0, not -1 as the claim
states (and on a connection without the option it gets -1, not 0). -/
theorem C2_counterexample :
    (receive_tcppacket { tcponly := true } [] 0).priority = 0
    ∧ (receive_tcppacket { tcponly := false } [] 0).priority = -1
    ∧ ((0 : Int) = -1 → False) := by
  refine ⟨rfl, rfl, by decide⟩

/-- C2 (amended): receive_tcppacket wraps every TCP-received byte
buffer in a frame whose priority is 0 when the connection has the
TCP-only option set and -1 otherwise, and forwards it to the routing
collaborator with the bytes unmodified, applying neither MAC
verification nor decryption. -/
theorem C2_receive_tcppacket_amended (c : Connection) (buffer : List Nat) (len : Nat) :
    (receive_tcppacket c buffer len).priority = (if c.tcponly then 0 else -1)
    ∧ (receive_tcppacket c buffer len).data = buffer
    ∧ (receive_tcppacket c buffer len).len = len := by
  exact ⟨rfl, rfl, rfl⟩

theorem latebit_eq (B s : Nat) (hB : 0 < B) : latebit B s = s % (8 * B) := by
  have h8 : s % 8 < 8 := Nat.mod_lt _ (by omega)
  have hq : (s / 8) % B < B := Nat.mod_lt _ hB
  have hd : 8 * (s / 8) + s % 8 = s := Nat.div_add_mod s 8
  have h1 : s % (8 * B) = (8 * (s / 8) + s % 8) % (8 * B) := by rw [hd]
  have h2 : (8 * (s / 8) + s % 8) % (8 * B)
      = ((8 * (s / 8)) % (8 * B) + (s % 8) % (8 * B)) % (8 * B) :=
    Nat.add_mod _ _ _
  have h3 : (8 * (s / 8)) % (8 * B) = 8 * ((s / 8) % B) :=
    Nat.mul_mod_mul_left 8 (s / 8) B
  have h4 : (s % 8) % (8 * B) = s % 8 := Nat.mod_eq_of_lt (by omega)
  have h5 : (8 * ((s / 8) % B) + s % 8) % (8 * B) = 8 * ((s / 8) % B) + s % 8 :=
    Nat.mod_eq_of_lt (by omega)
  have h6 : s % (8 * B) = 8 * ((s / 8) % B) + s % 8 := by
    rw [h1, h2, h3, h4, h5]
  rw [latebit, h6]

/-- C3: for an inbound seqno s at most the current received_seqno R,
with window W = 8 * B bits, the replay check of receive_udppacket
accepts exactly when s > R - W over the integers and the late-bitmap
bit at position s mod W is set, and acceptance clears that bit;
otherwise the packet is dropped as late or replayed. -/
theorem C3_replay_window_accept (B : Nat) (st : SeqState) (s : Nat)
    (hB : 0 < B) (hs : s ≤ st.received_seqno) :
    ((seqnoCheck B st s).isSome = true ↔
      ((st.received_seqno : Int) - (8 * B : Nat) < (s : Int)
        ∧ st.late (s % (8 * B)) = true))
    ∧ ∀ st2, seqnoCheck B st s = some st2 → st2.late (s % (8 * B)) = false := by
  have hlb := latebit_eq B s hB
  have h1 : s ≠ st.received_seqno + 1 := by omega
  have h2 : ¬ (st.received_seqno + 8 * B ≤ s) := by omega
  rw [seqnoCheck, if_pos h1, if_neg h2, if_pos hs]
  by_cases hdrop : (8 * B ≤ st.received_seqno ∧ s ≤ st.received_seqno - 8 * B)
      ∨ st.late (latebit B s) = false
  · rw [if_pos hdrop]
    constructor
    · constructor
      · intro habs
        simp at habs
      · intro hr
        rcases hdrop with hble | hbit
        · exfalso
          have := hr.1
          omega
        · exfalso
          rw [hlb] at hbit
          rw [hr.2] at hbit
          exact Bool.true_eq_false.mp hbit
    · intro st2 habs
      simp at habs
  · rw [if_neg hdrop]
    push_neg at hdrop
    constructor
    · constructor
      · intro _
        refine ⟨by omega, ?_⟩
        rw [← hlb]
        cases hbit : st.late (latebit B s) with
        | false => exact absurd hbit hdrop.2
        | true => rfl
      · intro _
        simp
    · intro st2 hsome
      have hst2 : finishSeqno B st s = st2 := Option.some.inj hsome
      rw [← hst2, finishSeqno]
      simp [hlb]

/-- C3 witness at B = 1, received_seqno = 10, seqno 10 with the
pending bit of slot 2 set. -/
theorem C3_witness :
    ((seqnoCheck 1 stC3 10).isSome = true ↔
      ((stC3.received_seqno : Int) - (8 * 1 : Nat) < (10 : Int)
        ∧ stC3.late (10 % (8 * 1)) = true))
    ∧ ∀ st2, seqnoCheck 1 stC3 10 = some st2 → st2.late (10 % (8 * 1)) = false :=
  C3_replay_window_accept 1 stC3 10 (by decide) (by decide)

/-- C4: with window W = 8 * B, an inbound seqno exactly R + W is
accepted and leaves the entire late bitmap zeroed with received_seqno
advanced to R + W, while for R ≥ W an inbound seqno R - W is
rejected. -/
theorem C4_window_edge (B : Nat) (st : SeqState) (hB : 0 < B) :
    (seqnoCheck B st (st.received_seqno + 8 * B)).isSome = true
    ∧ (∀ st2, seqnoCheck B st (st.received_seqno + 8 * B) = some st2 →
        st2.received_seqno = st.received_seqno + 8 * B
        ∧ ∀ p, st2.late p = false)
    ∧ (8 * B ≤ st.received_seqno →
        seqnoCheck B st (st.received_seqno - 8 * B) = none) := by
  have h1 : st.received_seqno + 8 * B ≠ st.received_seqno + 1 := by omega
  have h2 : st.received_seqno + 8 * B ≤ st.received_seqno + 8 * B := le_refl _
  refine ⟨?_, ?_, ?_⟩
  · rw [seqnoCheck, if_pos h1, if_pos h2]
    rfl
  · intro st2 hsome
    rw [seqnoCheck, if_pos h1, if_pos h2] at hsome
    have hst2 : finishSeqno B { st with late := fun _ => false }
        (st.received_seqno + 8 * B) = st2 := Option.some.inj hsome
    rw [← hst2, finishSeqno]
    constructor
    · simp only
      rw [if_pos (by omega)]
    · intro p
      simp
  · intro hW
    have h3 : st.received_seqno - 8 * B ≠ st.received_seqno + 1 := by omega
    have h4 : ¬ (st.received_seqno + 8 * B ≤ st.received_seqno - 8 * B) := by
      omega
    have h5 : st.received_seqno - 8 * B ≤ st.received_seqno := by omega
    have h6 : (8 * B ≤ st.received_seqno
        ∧ st.received_seqno - 8 * B ≤ st.received_seqno - 8 * B)
        ∨ st.late (latebit B (st.received_seqno - 8 * B)) = false :=
      Or.inl ⟨hW, le_refl _⟩
    rw [seqnoCheck, if_pos h3, if_neg h4, if_pos h5, if_pos h6]

/-- C4 witness at B = 1, received_seqno = 9. -/
theorem C4_witness :
    (seqnoCheck 1 stC4 (stC4.received_seqno + 8 * 1)).isSome = true
    ∧ (∀ st2, seqnoCheck 1 stC4 (stC4.received_seqno + 8 * 1) = some st2 →
        st2.received_seqno = stC4.received_seqno + 8 * 1
        ∧ ∀ p, st2.late p = false)
    ∧ (8 * 1 ≤ stC4.received_seqno →
        seqnoCheck 1 stC4 (stC4.received_seqno - 8 * 1) = none) :=
  C4_window_edge 1 stC4 (by decide)

theorem send_udppacket_seqno_cases (env : SendEnv) (n : SNode) (pkt : VPacket) :
    (send_udppacket env n pkt).node.sent_seqno = n.sent_seqno
    ∨ (send_udppacket env n pkt).node.sent_seqno = n.sent_seqno + 1 := by
  unfold send_udppacket
  repeat' split
  all_goals simp

theorem send_udppacket_spec (env : SendEnv) (n : SNode) (pkt : VPacket) :
    (send_udppacket env n pkt).emittedSeqno = none
    ∨ ((send_udppacket env n pkt).emittedSeqno = some (n.sent_seqno + 1)
      ∧ (send_udppacket env n pkt).node.sent_seqno = n.sent_seqno + 1
      ∧ (send_udppacket env n pkt).preEncSeqno = some (htonl (n.sent_seqno + 1))) := by
  unfold send_udppacket
  repeat' split
  all_goals simp

theorem send_udppacket_emitted (env : SendEnv) (n : SNode) (pkt : VPacket)
    (s : Nat) (h : (send_udppacket env n pkt).emittedSeqno = some s) :
    s = n.sent_seqno + 1
    ∧ (send_udppacket env n pkt).node.sent_seqno = n.sent_seqno + 1
    ∧ (send_udppacket env n pkt).preEncSeqno = some (htonl (n.sent_seqno + 1)) := by
  rcases send_udppacket_spec env n pkt with h0 | ⟨h1, h2, h3⟩
  · rw [h0] at h
    cases h
  · rw [h1] at h
    injection h with hs
    exact ⟨hs.symm, h2, h3⟩

theorem sendTrace_facts (calls : List (SendEnv × VPacket)) :
    ∀ n : SNode,
      n.sent_seqno ≤ (sendTrace n calls).1.sent_seqno
      ∧ (∀ s, s ∈ (sendTrace n calls).2 →
          n.sent_seqno < s ∧ s ≤ (sendTrace n calls).1.sent_seqno)
      ∧ List.Pairwise (fun a b => a < b) (sendTrace n calls).2 := by
  induction calls with
  | nil =>
    intro n
    refine ⟨le_refl _, ?_, List.Pairwise.nil⟩
    intro s hs
    simp [sendTrace] at hs
  | cons c rest ih =>
    intro n
    have hr := ih (send_udppacket c.1 n c.2).node
    have hcase := send_udppacket_seqno_cases c.1 n c.2
    cases hE : (send_udppacket c.1 n c.2).emittedSeqno with
    | none =>
      simp only [sendTrace, hE, Option.toList, List.nil_append]
      refine ⟨by omega, ?_, hr.2.2⟩
      intro s hs
      have := hr.2.1 s hs
      omega
    | some s0 =>
      have hem := send_udppacket_emitted c.1 n c.2 s0 hE
      simp only [sendTrace, hE, Option.toList, List.singleton_append]
      refine ⟨?_, ?_, ?_⟩
      · have := hr.1
        omega
      · intro s hs
        rcases List.mem_cons.mp hs with hh | ht
        · subst hh
          have := hr.1
          omega
        · have := hr.2.1 s ht
          omega
      · refine List.pairwise_cons.mpr ⟨?_, hr.2.2⟩
        intro b hb
        have := hr.2.1 b hb
        omega

/-- C6: for a peer without a valid key, send_udppacket emits no UDP
datagram, calls send_req_key exactly when waitingforkey was not
already set, sets waitingforkey, hands the unmodified frame to
send_tcppacket on nexthop->connection, and leaves sent_seqno and the
caller's frame untouched. -/
theorem C6_no_valid_key_tcp_fallback (env : SendEnv) (n : SNode) (pkt : VPacket) :
    (send_udppacket env { n with validkey := false } pkt).udpLen = none
    ∧ (send_udppacket env { n with validkey := false } pkt).emittedSeqno = none
    ∧ (send_udppacket env { n with validkey := false } pkt).reqKey
        = !n.waitingforkey
    ∧ (send_udppacket env { n with validkey := false } pkt).node
        = { n with validkey := false, waitingforkey := true }
    ∧ (send_udppacket env { n with validkey := false } pkt).tcpSent = [pkt]
    ∧ (send_udppacket env { n with validkey := false } pkt).node.sent_seqno
        = n.sent_seqno
    ∧ (send_udppacket env { n with validkey := false } pkt).finalPkt = pkt := by
  refine ⟨rfl, rfl, rfl, rfl, rfl, rfl, rfl⟩

/-- C7: across any sequence of send_udppacket calls the sent_seqno
values of the frames handed to sendto are strictly increasing, and
every emitted frame corresponds to exactly one increment of
sent_seqno, performed before the encrypt stage, whose value is written
into the frame's seqno slot in network byte order. -/
theorem C7_sent_seqno_monotone (n : SNode) (calls : List (SendEnv × VPacket)) :
    List.Pairwise (fun a b => a < b) (sendTrace n calls).2
    ∧ (∀ env pkt s, (send_udppacket env n pkt).emittedSeqno = some s →
        s = n.sent_seqno + 1
        ∧ (send_udppacket env n pkt).node.sent_seqno = n.sent_seqno + 1
        ∧ (send_udppacket env n pkt).preEncSeqno = some (htonl (n.sent_seqno + 1))) := by
  constructor
  · exact (sendTrace_facts calls n).2.2
  · intro env pkt s h
    exact send_udppacket_emitted env n pkt s h

/-- C7 witness: one call with a valid key and a working sendto emits
seqno 6 for a peer whose counter was 5, writing its big-endian bytes
into the seqno slot. -/
theorem C7_witness :
    (send_udppacket envOk nodeK pktA).emittedSeqno = some 6
    ∧ (6 = nodeK.sent_seqno + 1
      ∧ (send_udppacket envOk nodeK pktA).node.sent_seqno = nodeK.sent_seqno + 1
      ∧ (send_udppacket envOk nodeK pktA).preEncSeqno
          = some (htonl (nodeK.sent_seqno + 1))) :=
  ⟨by decide, (C7_sent_seqno_monotone nodeK []).2 envOk pktA 6 (by decide)⟩

/-- C8 counterexample: a send whose sendto fails with EMSGSIZE also
changes sent_seqno (it was incremented for the attempted frame), so
the claim that no peer field other than maxmtu and mtu changes is
false. -/
theorem C8_counterexample :
    (send_udppacket envEms nodeK pktA).udpLen.isSome = true
    ∧ envEms.sendtoRes = SendtoRes.emsgsize
    ∧ nodeK.sent_seqno = 5
    ∧ (send_udppacket envEms nodeK pktA).node.sent_seqno = 6
    ∧ ((send_udppacket envEms nodeK pktA).node.sent_seqno = nodeK.sent_seqno
        → False) := by
  refine ⟨by decide, rfl, rfl, by decide, by decide⟩

theorem send_udppacket_emsgsize_spec (env : SendEnv) (n : SNode) (pkt : VPacket)
    (he : env.sendtoRes = SendtoRes.emsgsize) :
    (send_udppacket env n pkt).udpLen = none
    ∨ ((send_udppacket env n pkt).node
        = { n with
            sent_seqno := n.sent_seqno + 1,
            maxmtu := if pkt.len ≤ n.maxmtu then pkt.len - 1 else n.maxmtu,
            mtu := if pkt.len ≤ n.mtu then pkt.len - 1 else n.mtu }
      ∧ (send_udppacket env n pkt).tcpSent = []) := by
  unfold send_udppacket
  repeat' split
  all_goals simp_all

/-- C8 (amended): when a send reaches sendto and it fails with
EMSGSIZE, for origlen the pre-compression frame length, maxmtu becomes
origlen - 1 when maxmtu ≥ origlen, mtu becomes origlen - 1 when
mtu ≥ origlen, sent_seqno has been incremented once for the attempted
frame, no other peer field changes, and the frame is lost: nothing is
retried and nothing falls back to TCP. -/
theorem C8_emsgsize_amended (env : SendEnv) (n : SNode) (pkt : VPacket)
    (h : (send_udppacket env n pkt).udpLen.isSome = true)
    (he : env.sendtoRes = SendtoRes.emsgsize) :
    (send_udppacket env n pkt).node
      = { n with
          sent_seqno := n.sent_seqno + 1,
          maxmtu := if pkt.len ≤ n.maxmtu then pkt.len - 1 else n.maxmtu,
          mtu := if pkt.len ≤ n.mtu then pkt.len - 1 else n.mtu }
    ∧ (send_udppacket env n pkt).tcpSent = [] := by
  rcases send_udppacket_emsgsize_spec env n pkt he with h0 | hgood
  · rw [h0] at h
    cases h
  · exact hgood

/-- C8 witness: concrete EMSGSIZE send of a 1200-byte frame against a
peer with maxmtu 1500 and mtu 1000. -/
theorem C8_witness :
    (send_udppacket envEms nodeK pktA).node
      = { nodeK with
          sent_seqno := nodeK.sent_seqno + 1,
          maxmtu := if pktA.len ≤ nodeK.maxmtu then pktA.len - 1 else nodeK.maxmtu,
          mtu := if pktA.len ≤ nodeK.mtu then pktA.len - 1 else nodeK.mtu }
    ∧ (send_udppacket envEms nodeK pktA).tcpSent = [] :=
  C8_emsgsize_amended envEms nodeK pktA (by decide) rfl

/-- C10: for the LZO compression levels 10 and 11, compress_packet
never returns the failure indicator because the LZO return codes are
ignored and the lzolen output length is returned unconditionally, so
the compression-error drop branch of send_udppacket is unreachable for
those levels. -/
theorem C10_lzo_no_failure (env : SendEnv) (len : Nat) (n : SNode) (pkt : VPacket) :
    (compress_packet env len 10).isSome = true
    ∧ (compress_packet env len 11).isSome = true
    ∧ (send_udppacket env { n with outcompression := 10 } pkt).compressDropped
        = false
    ∧ (send_udppacket env { n with outcompression := 11 } pkt).compressDropped
        = false := by
  refine ⟨rfl, rfl, ?_, ?_⟩
  all_goals unfold send_udppacket
  all_goals repeat' split
  all_goals simp_all [compress_packet]

theorem clampEms_inv (st : MtuState) (o : Nat) (h : MtuInv st)
    (ho : st.minmtu < o) : MtuInv (clampEms st o) := by
  rcases h with ⟨h1, h2⟩
  unfold MtuInv clampEms
  constructor <;> simp only
  · split <;> omega
  · split <;> split <;> omega

theorem roundLoop_inv (rs : List (Nat × Bool)) :
    ∀ st : MtuState, MtuInv st → MtuInv (roundLoop st rs) := by
  induction rs with
  | nil => intro st h; exact h
  | cons re rest ih =>
    intro st h
    rcases h with ⟨h1, h2⟩
    simp only [roundLoop]
    split
    · exact ⟨le_refl _, le_trans h1 h2⟩
    · refine ih _ ?_
      split
      · refine clampEms_inv st _ ⟨h1, h2⟩ ?_
        generalize re.1 % (st.maxmtu - st.minmtu) = k
        split <;> omega
      · exact ⟨h1, h2⟩

theorem stepEvent_inv (st : MtuState) (ev : MtuEvent) (h : MtuInv st)
    (hok : okEventB st ev = true) : MtuInv (stepEvent st ev) := by
  rcases h with ⟨h1, h2⟩
  cases ev with
  | probeReply L =>
    simp only [okEventB, decide_eq_true_eq] at hok
    simp only [stepEvent]
    split
    · exact ⟨hok, h2⟩
    · exact ⟨h1, h2⟩
  | udpSend origlen ems =>
    simp only [stepEvent]
    split
    · rename_i hems
      simp only [okEventB, hems, Bool.not_true, Bool.false_or,
        decide_eq_true_eq] at hok
      exact clampEms_inv st origlen ⟨h1, h2⟩ hok
    · exact ⟨h1, h2⟩
  | probeRound a b c =>
    simp only [stepEvent]
    split
    · exact ⟨h1, h2⟩
    · exact roundLoop_inv [a, b, c] _ ⟨h1, h2⟩

/-- C5 counterexample: from a state with minmtu 600, mtu and maxmtu
1500 (all set, ordering holds), a probe reply of recorded length 1400
followed by a 1000-byte UDP send failing with EMSGSIZE yields minmtu
1400, mtu 999, maxmtu 999: the ordering minmtu ≤ mtu ≤ maxmtu is
violated although both events are legitimate probe receptions and UDP
sends. -/
theorem C5_counterexample :
    MtuInv stC5x
    ∧ runMtu stC5x [MtuEvent.probeReply 1400, MtuEvent.udpSend 1000 true]
        = { minmtu := 1400, mtu := 999, maxmtu := 999, mtuprobes := 5 }
    ∧ ((1400 : Nat) ≤ 999 → False) := by
  refine ⟨by decide, by decide, by decide⟩

/-- C5 (amended): the ordering minmtu ≤ mtu ≤ maxmtu is preserved by
every sequence of probe receptions, probe emission rounds, and UDP
sends from any state satisfying it, provided every probe reply's
recorded length is at most the peer's current mtu and every send that
fails with EMSGSIZE carries a frame longer than the peer's current
minmtu; the counterexample shows the ordering is violated without
those side conditions. -/
theorem C5_mtu_order_amended (evs : List MtuEvent) :
    ∀ st : MtuState, MtuInv st → traceOKB st evs = true →
      MtuInv (runMtu st evs) := by
  induction evs with
  | nil => intro st h _; exact h
  | cons e rest ih =>
    intro st h hok
    have hsplit : okEventB st e = true ∧ traceOKB (stepEvent st e) rest = true := by
      have : (okEventB st e && traceOKB (stepEvent st e) rest) = true := hok
      exact Bool.and_eq_true_iff.mp this
    have hstep := stepEvent_inv st e h hsplit.1
    have hrun : runMtu st (e :: rest) = runMtu (stepEvent st e) rest := rfl
    rw [hrun]
    exact ih (stepEvent st e) hstep hsplit.2

/-- C5 witness: a probe reply within mtu and an EMSGSIZE send above
minmtu keep the ordering from minmtu 600, mtu 1000, maxmtu 1500. -/
theorem C5_witness :
    MtuInv (runMtu stC5w [MtuEvent.probeReply 800, MtuEvent.udpSend 1200 true]) :=
  C5_mtu_order_amended [MtuEvent.probeReply 800, MtuEvent.udpSend 1200 true]
    stC5w (by decide) (by decide)

/-- C9 counterexample: with inbound compression active (level 10) and
device MTU 1514, a received probe reply of compressed payload length
100 whose decompressed length is 500 sets minmtu to 57
(100 - (1514 / 64 + 20)), not to the decompressed length 500 the
claim requires. -/
theorem C9_counterexample :
    envRC.uncompressResult = some (dRep, 500)
    ∧ (receive_dispatch 1514 envRC nR pktC).node.minmtu = 57
    ∧ ((57 : Nat) = 500 → False) := by
  refine ⟨rfl, by decide, by decide⟩

/-- C9 (amended): for a received probe reply (payload bytes 12 and 13
zero, first byte 1) the recorded length L is the received payload
length when inbound compression is off, and the received compressed
payload length minus (MTU / 64 + 20) - not the decompressed length -
when compression is on; minmtu is set to L when L > minmtu and is
unchanged otherwise. -/
theorem C9_probe_reply_amended (MTU : Nat) (env : RecvEnv) (n : RNode)
    (pkt : VPacket) :
    (n.incompression = 0 → pktByte pkt 12 = 0 → pktByte pkt 13 = 0 →
      pktByte pkt 0 = 1 →
      (receive_dispatch MTU env n pkt).node.minmtu
        = if n.minmtu < pkt.len then pkt.len else n.minmtu)
    ∧ (∀ d dlen, n.incompression ≠ 0 → env.uncompressResult = some (d, dlen) →
        d.getD 12 0 = 0 → d.getD 13 0 = 0 → d.getD 0 0 = 1 →
        (receive_dispatch MTU env n pkt).node.minmtu
          = if n.minmtu < pkt.len - (MTU / 64 + 20) then pkt.len - (MTU / 64 + 20)
            else n.minmtu) := by
  constructor
  · intro hc h12 h13 h0
    unfold receive_dispatch
    rw [if_neg (by simp [hc])]
    have hp : pktByte { pkt with priority := 0 } 12 = 0
        ∧ pktByte { pkt with priority := 0 } 13 = 0 := by
      simp only [pktByte] at h12 h13 ⊢
      exact ⟨h12, h13⟩
    simp only
    rw [if_pos hp]
    unfold mtu_probe_h
    rw [if_neg (by simp only [pktByte] at h0 ⊢; omega)]
    split <;> simp
  · intro d dlen hc hu h12 h13 h0
    unfold receive_dispatch
    rw [if_pos hc, hu]
    have hp : pktByte { data := d, len := dlen, priority := (0 : Int) } 12 = 0
        ∧ pktByte { data := d, len := dlen, priority := (0 : Int) } 13 = 0 := by
      simp only [pktByte]
      exact ⟨h12, h13⟩
    simp only
    rw [if_pos hp]
    unfold mtu_probe_h
    rw [if_neg (by simp only [pktByte]; omega)]
    split <;> simp

/-- C9 witness: with compression on, a compressed payload of length
100 and device MTU 1514 raise minmtu from 0 to 57. -/
theorem C9_witness :
    (receive_dispatch 1514 envRC nR pktC).node.minmtu
      = if nR.minmtu < pktC.len - (1514 / 64 + 20)
        then pktC.len - (1514 / 64 + 20) else nR.minmtu :=
  (C9_probe_reply_amended 1514 envRC nR pktC).2 dRep 500 (by decide) rfl
    (by decide) (by decide) (by decide)
